import Mathlib

/-!
# Verification of the Session Isolation & Lifecycle Manager

A shallow embedding, in Lean 4, of the core session-lifecycle code of the
repository (backend `app/core/security.py`, `app/core/database.py`,
`app/api/auth.py`, and the deployment scripts `provision_session.py`,
`manage_session_containers.py`, `cleanup_session_containers.py`),
together with theorems settling the frozen claims about it.

Modelling conventions:
* Timestamps and durations are `Int` values (seconds); `datetime.now(timezone.utc)`
  becomes an explicit `now : Int` parameter, and `timedelta(hours=settings.SESSION_TTL_HOURS)`
  becomes an abstract `ttl : Int` parameter.
* Python `dict`s keyed by strings become association lists with dict semantics
  (lookup finds the first binding; assignment overwrites in place or appends).
* SQLite tables become lists of row structures; `AUTOINCREMENT` row ids come
  from an explicit monotone counter; `ORDER BY id ASC` is `List.mergeSort` on ids.
* Fallible I/O (SQL statements inside a transaction, socket probes, subprocess
  calls, ISO-timestamp parsing) is modelled with `Except`/`Option` and, where the
  environment decides the outcome (socket state, docker exit codes), with an
  explicit oracle function passed as a parameter.
-/

/-! ## Association lists with Python-dict semantics

Python dicts have unique keys; on such lists the first-occurrence recursion
below matches dict lookup, dict assignment (overwrite in place or append) and
in-place mutation of a stored value. -/

/-- `d.get(k)`: value at the first binding of `k`, if any. -/
def lookupKey {α : Type} : List (String × α) → String → Option α
  | [], _ => none
  | p :: rest, k => if p.1 = k then some p.2 else lookupKey rest k

/-- `d[k] = v`: overwrite the first binding of `k` in place if present, else append. -/
def setKey {α : Type} : List (String × α) → String → α → List (String × α)
  | [], k, v => [(k, v)]
  | p :: rest, k, v => if p.1 = k then (k, v) :: rest else p :: setKey rest k v

/-- In-place mutation of the value stored at `k` (no-op when `k` is absent). -/
def modifyKey {α : Type} : List (String × α) → String → (α → α) → List (String × α)
  | [], _, _ => []
  | p :: rest, k, f => if p.1 = k then (p.1, f p.2) :: rest else p :: modifyKey rest k f

theorem lookupKey_setKey_self {α : Type} (l : List (String × α)) (k : String) (v : α) :
    lookupKey (setKey l k v) k = some v := by
  induction l with
  | nil => simp [setKey, lookupKey]
  | cons p rest ih =>
    by_cases hp : p.1 = k
    · simp [setKey, lookupKey, hp]
    · simp [setKey, lookupKey, hp, ih]

theorem lookupKey_setKey_ne {α : Type} (l : List (String × α)) (k k' : String) (v : α)
    (hne : k' ≠ k) : lookupKey (setKey l k v) k' = lookupKey l k' := by
  have h1 : ¬ k = k' := fun h => hne h.symm
  induction l with
  | nil => simp [setKey, lookupKey, h1]
  | cons p rest ih =>
    by_cases hp : p.1 = k
    · simp [setKey, lookupKey, hp, h1]
    · by_cases hq : p.1 = k'
      · have h2 : ¬ k' = k := hne
        simp [setKey, lookupKey, hp, hq, h2]
      · simp [setKey, lookupKey, hp, hq, ih]

theorem lookupKey_modifyKey_self {α : Type} (l : List (String × α)) (k : String)
    (f : α → α) (v : α) (h : lookupKey l k = some v) :
    lookupKey (modifyKey l k f) k = some (f v) := by
  induction l with
  | nil => simp [lookupKey] at h
  | cons p rest ih =>
    by_cases hp : p.1 = k
    · simp [lookupKey, hp] at h
      simp [modifyKey, lookupKey, hp, h]
    · simp [lookupKey, hp] at h
      simp [modifyKey, lookupKey, hp, ih h]

theorem lookupKey_modifyKey_ne {α : Type} (l : List (String × α)) (k k' : String)
    (f : α → α) (hne : k' ≠ k) :
    lookupKey (modifyKey l k f) k' = lookupKey l k' := by
  have h1 : ¬ k = k' := fun h => hne h.symm
  induction l with
  | nil => simp [modifyKey]
  | cons p rest ih =>
    by_cases hp : p.1 = k
    · simp [modifyKey, lookupKey, hp, h1]
    · by_cases hq : p.1 = k'
      · have h2 : ¬ k' = k := hne
        simp [modifyKey, lookupKey, hp, hq, h2]
      · simp [modifyKey, lookupKey, hp, hq, ih]

theorem lookupKey_modifyKey_isSome {α : Type} (l : List (String × α)) (k k' : String)
    (f : α → α) :
    (lookupKey (modifyKey l k f) k').isSome = (lookupKey l k').isSome := by
  by_cases hne : k' = k
  · subst hne
    induction l with
    | nil => simp [modifyKey]
    | cons p rest ih =>
      by_cases hp : p.1 = k'
      · simp [modifyKey, lookupKey, hp]
      · simp [modifyKey, lookupKey, hp, ih]
  · rw [lookupKey_modifyKey_ne l k k' f hne]

/-! ## Session registry (`app/core/security.py`, class `SessionManager`)

A session value is the dict stored at `self.sessions[session_id]` by
`create_session` / `load_sessions_from_file`. -/

structure Session where
  username : String
  password_hash : String
  created_at : Int
  expires_at : Int
  documents : List String
  conversations : List String
  active : Bool
deriving Repr, DecidableEq

/-- The two dicts held by `SessionManager`: `self.sessions` and
`self.session_start_times`. -/
structure SessionManager where
  sessions : List (String × Session)
  session_start_times : List (String × Int)
deriving Repr, DecidableEq

namespace SessionManager

/-- `SessionManager.create_session` (security.py:97-111).  `session_id` is the
fresh `secrets.token_urlsafe(32)` value, `now` the current UTC time, `ttl` the
duration `timedelta(hours=settings.SESSION_TTL_HOURS)`. -/
def create_session (mgr : SessionManager) (session_id username password_hash : String)
    (now ttl : Int) : SessionManager :=
  { sessions := setKey mgr.sessions session_id
      { username := username
        password_hash := password_hash
        created_at := now
        expires_at := now + ttl
        documents := []
        conversations := []
        active := true }
    session_start_times := setKey mgr.session_start_times session_id now }

/-- `SessionManager.get_session` (security.py:113-115). -/
def get_session (mgr : SessionManager) (session_id : String) : Option Session :=
  lookupKey mgr.sessions session_id

/-- `SessionManager.get_session_time_remaining` (security.py:129-139).
Returns `none` when the id is unknown; otherwise `TTL - (now - start)`,
clamped to `0` when not positive (`remaining if remaining.total_seconds() > 0
else timedelta(0)`). -/
def get_session_time_remaining (mgr : SessionManager) (session_id : String)
    (now ttl : Int) : Option Int :=
  match lookupKey mgr.session_start_times session_id with
  | none => none
  | some start_time =>
      let elapsed := now - start_time
      let remaining := ttl - elapsed
      some (if remaining > 0 then remaining else 0)

end SessionManager

/-! ## Auth endpoints (`app/api/auth.py`) -/

/-- The `logout` endpoint body (auth.py:128-140): if the token carries a
session id and the session exists, set its `active` field to `False` in place;
nothing else changes and nothing is deleted. -/
def logout (mgr : SessionManager) (session_id : String) : SessionManager :=
  match SessionManager.get_session mgr session_id with
  | none => mgr
  | some _ =>
      { mgr with
        sessions := modifyKey mgr.sessions session_id (fun s => { s with active := false }) }

theorem modifyKey_modifyKey {α : Type} (l : List (String × α)) (k : String)
    (f g : α → α) :
    modifyKey (modifyKey l k f) k g = modifyKey l k (fun x => g (f x)) := by
  induction l with
  | nil => simp [modifyKey]
  | cons p rest ih =>
    by_cases hp : p.1 = k
    · simp [modifyKey, hp]
    · simp [modifyKey, hp, ih]

/-! ## Theorems for claims C1 and C2 -/

/-- **C1.** For every session created by `SessionManager.create_session`, the
stored `expires_at` equals `created_at` plus the configured TTL; and
`get_session_time_remaining` returns `TTL - (now - createdAt)` floored at zero
for every session known to the registry, so the result is never negative and
is monotonically non-increasing as the evaluation time increases. -/
theorem create_session_expiry_and_time_remaining_floor
    (mgr : SessionManager) (sid username password_hash : String) (now ttl : Int) :
    (∃ s, SessionManager.get_session
        (SessionManager.create_session mgr sid username password_hash now ttl) sid = some s
        ∧ s.created_at = now ∧ s.expires_at = s.created_at + ttl)
    ∧ (∀ sid' now' r,
        SessionManager.get_session_time_remaining mgr sid' now' ttl = some r →
          0 ≤ r ∧ ∃ st, lookupKey mgr.session_start_times sid' = some st
            ∧ r = max 0 (ttl - (now' - st)))
    ∧ (∀ sid' n₁ n₂ r₁ r₂, n₁ ≤ n₂ →
        SessionManager.get_session_time_remaining mgr sid' n₁ ttl = some r₁ →
        SessionManager.get_session_time_remaining mgr sid' n₂ ttl = some r₂ →
          r₂ ≤ r₁) := by
  refine ⟨?_, ?_, ?_⟩
  · refine ⟨Session.mk username password_hash now (now + ttl) [] [] true, ?_, rfl, rfl⟩
    unfold SessionManager.get_session SessionManager.create_session
    exact lookupKey_setKey_self _ _ _
  · intro sid' now' r h
    unfold SessionManager.get_session_time_remaining at h
    cases hst : lookupKey mgr.session_start_times sid' with
    | none => rw [hst] at h; exact absurd h (by simp)
    | some st =>
      rw [hst] at h
      simp only [Option.some.injEq] at h
      refine ⟨?_, st, rfl, ?_⟩ <;> (subst h; split <;> omega)
  · intro sid' n₁ n₂ r₁ r₂ hle h₁ h₂
    unfold SessionManager.get_session_time_remaining at h₁ h₂
    cases hst : lookupKey mgr.session_start_times sid' with
    | none => rw [hst] at h₁; exact absurd h₁ (by simp)
    | some st =>
      rw [hst] at h₁ h₂
      simp only [Option.some.injEq] at h₁ h₂
      subst h₁; subst h₂
      split <;> split <;> omega

/-- Concrete instantiation of `create_session_expiry_and_time_remaining_floor`:
a registry holding one session started at time 0 with TTL 10 reports 6 units
remaining at time 4 and only 1 unit remaining at time 9. -/
theorem create_session_expiry_witness :
    SessionManager.get_session_time_remaining
        (SessionManager.mk [] [("s1", 0)]) "s1" 4 10 = some 6
    ∧ (0 : Int) ≤ 6 ∧ (1 : Int) ≤ 6 := by
  have h := create_session_expiry_and_time_remaining_floor
    (SessionManager.mk [] [("s1", 0)]) "x" "u" "p" 0 10
  have h2 := h.2.1 "s1" 4 6 (by decide)
  have h3 := h.2.2 "s1" 4 9 6 1 (by decide) (by decide) (by decide)
  exact ⟨by decide, h2.1, h3⟩

/-- **C2.** `logout` only clears the `active` flag of the named session: every
other field (username, password hash, timestamps, documents, conversations)
is unchanged, `get_session` still returns the session afterwards, other
sessions and the start-time table are untouched, logout is idempotent, and no
session is ever deleted. -/
theorem logout_only_clears_active_flag
    (mgr : SessionManager) (sid : String) (s : Session)
    (h : SessionManager.get_session mgr sid = some s) :
    SessionManager.get_session (logout mgr sid) sid = some { s with active := false }
    ∧ (∀ sid', sid' ≠ sid →
        SessionManager.get_session (logout mgr sid) sid'
          = SessionManager.get_session mgr sid')
    ∧ logout (logout mgr sid) sid = logout mgr sid
    ∧ (∀ sid', (SessionManager.get_session (logout mgr sid) sid').isSome
          = (SessionManager.get_session mgr sid').isSome)
    ∧ (logout mgr sid).session_start_times = mgr.session_start_times := by
  have hget : SessionManager.get_session (logout mgr sid) sid
      = some { s with active := false } := by
    unfold logout
    rw [h]
    exact lookupKey_modifyKey_self (l := mgr.sessions) (k := sid)
      (f := fun s => { s with active := false }) (v := s) h
  refine ⟨hget, ?_, ?_, ?_, ?_⟩
  · intro sid' hne
    unfold logout
    rw [h]
    exact lookupKey_modifyKey_ne mgr.sessions sid sid' _ hne
  · have hL : logout mgr sid
        = { mgr with sessions :=
            modifyKey mgr.sessions sid (fun s => { s with active := false }) } := by
      unfold logout; rw [h]
    have hg : SessionManager.get_session
        { mgr with sessions :=
            modifyKey mgr.sessions sid (fun s => { s with active := false }) } sid
        = some { s with active := false } := hL ▸ hget
    rw [hL]
    unfold logout
    rw [hg]
    simp only [modifyKey_modifyKey]
  · intro sid'
    unfold logout
    rw [h]
    exact lookupKey_modifyKey_isSome mgr.sessions sid sid' _
  · unfold logout
    rw [h]

/-- Concrete instantiation of `logout_only_clears_active_flag` on a registry
holding one active session. -/
theorem logout_only_clears_active_flag_witness :
    SessionManager.get_session
        (logout (SessionManager.mk
          [("s1", ⟨"alice", "h", 0, 10, [], [], true⟩)] [("s1", 0)]) "s1") "s1"
      = some ⟨"alice", "h", 0, 10, [], [], false⟩ :=
  (logout_only_clears_active_flag
    (SessionManager.mk [("s1", ⟨"alice", "h", 0, 10, [], [], true⟩)] [("s1", 0)])
    "s1" ⟨"alice", "h", 0, 10, [], [], true⟩ (by decide)).1

/-! ## Ephemeral store (`app/core/database.py`, class `EphemeralDatabase`)

SQLite tables become lists of rows.  `AUTOINCREMENT` message ids come from the
monotone counter `next_message_id`.  The JSON-encoded `document_ids` /
`document_contents` columns are modelled structurally (`json.dumps`/`json.loads`
round-trip on these values is the identity); Python's falsy check
`json.dumps(x) if x else None` stores `none` for both `None` and an empty
collection, so both are modelled by the empty list. -/

structure MessageRow where
  id : Nat
  conversation_id : String
  role : String
  content : String
  timestamp : String
  document_ids : Option (List String)
  document_contents : Option (List (String × String))
deriving Repr, DecidableEq

structure ConversationRow where
  id : String
  session_id : String
  created_at : String
  updated_at : String
deriving Repr, DecidableEq

structure EphemeralDatabase where
  conversations : List ConversationRow
  messages : List MessageRow
  message_documents : List (Nat × String)
  next_message_id : Nat
deriving Repr, DecidableEq

/-- The message dict produced by `add_message`'s return value and by
`get_conversation`'s row decoding (NULL columns decode to empty collections). -/
structure MessageView where
  id : Nat
  role : String
  content : String
  timestamp : String
  document_ids : List String
  document_contents : List (String × String)
deriving Repr, DecidableEq

structure ConversationView where
  conversation_id : String
  created_at : String
  updated_at : String
  messages : List MessageView
deriving Repr, DecidableEq

namespace EphemeralDatabase

/-- The `INSERT INTO messages ...` statement of `add_message`
(database.py:130-138); yields the fresh `cursor.lastrowid`. -/
def insertMessage (db : EphemeralDatabase) (conversation_id role content timestamp : String)
    (document_ids : List String) (document_contents : List (String × String)) :
    EphemeralDatabase × Nat :=
  ({ db with
      messages := db.messages ++
        [{ id := db.next_message_id
           conversation_id := conversation_id
           role := role
           content := content
           timestamp := timestamp
           document_ids := if document_ids.isEmpty then none else some document_ids
           document_contents :=
             if document_contents.isEmpty then none else some document_contents }]
      next_message_id := db.next_message_id + 1 },
   db.next_message_id)

/-- The `INSERT OR IGNORE INTO message_documents ...` loop of `add_message`
(database.py:141-146). -/
def insertAssociations (db : EphemeralDatabase) (message_id : Nat)
    (document_ids : List String) : EphemeralDatabase :=
  { db with
    message_documents := document_ids.foldl
      (fun acc d => if acc.contains (message_id, d) then acc else acc ++ [(message_id, d)])
      db.message_documents }

/-- The `UPDATE conversations SET updated_at = ? WHERE id = ?` statement of
`add_message` (database.py:149-153). -/
def updateConversationTimestamp (db : EphemeralDatabase)
    (conversation_id timestamp : String) : EphemeralDatabase :=
  { db with
    conversations := db.conversations.map
      (fun c => if c.id = conversation_id then { c with updated_at := timestamp } else c) }

/-- `EphemeralDatabase.add_message` (database.py:122-162), happy path: insert
the message row, record document associations when any were passed, bump the
owning conversation's `updated_at`, return the message dict. -/
def add_message (db : EphemeralDatabase) (conversation_id role content timestamp : String)
    (document_ids : List String) (document_contents : List (String × String)) :
    EphemeralDatabase × MessageView :=
  let step1 := insertMessage db conversation_id role content timestamp
    document_ids document_contents
  let db1 := step1.1
  let message_id := step1.2
  let db2 := if document_ids.isEmpty then db1
    else insertAssociations db1 message_id document_ids
  let db3 := updateConversationTimestamp db2 conversation_id timestamp
  (db3,
   { id := message_id
     role := role
     content := content
     timestamp := timestamp
     document_ids := document_ids
     document_contents := document_contents })

/-- Whether each SQL statement inside the `add_message` transaction raises
(modelling sqlite errors, which the code's `get_cursor` context manager turns
into a rollback). -/
structure SqlFaults where
  insert_message : Bool
  insert_association : Bool
  update_conversation : Bool
deriving Repr, DecidableEq

/-- `EphemeralDatabase.get_cursor` (database.py:90-102): run the body; on
success commit its final state, on an exception roll back to the entry state
and re-raise. -/
def runTransaction {α : Type} (db : EphemeralDatabase)
    (body : EphemeralDatabase → Except String (EphemeralDatabase × α)) :
    EphemeralDatabase × Except String α :=
  match body db with
  | .ok (db', a) => (db', .ok a)
  | .error e => (db, .error e)

/-- `add_message` run inside `get_cursor`'s transaction, with the possibility
of each SQL statement raising made explicit via `SqlFaults`. -/
def add_message_txn (f : SqlFaults) (db : EphemeralDatabase)
    (conversation_id role content timestamp : String)
    (document_ids : List String) (document_contents : List (String × String)) :
    EphemeralDatabase × Except String MessageView :=
  runTransaction db (fun db0 =>
    if f.insert_message then .error "INSERT INTO messages failed" else
    let step1 := insertMessage db0 conversation_id role content timestamp
      document_ids document_contents
    let db1 := step1.1
    let message_id := step1.2
    if f.insert_association && !document_ids.isEmpty then
      .error "INSERT OR IGNORE INTO message_documents failed" else
    let db2 := if document_ids.isEmpty then db1
      else insertAssociations db1 message_id document_ids
    if f.update_conversation then .error "UPDATE conversations failed" else
    let db3 := updateConversationTimestamp db2 conversation_id timestamp
    .ok (db3,
      { id := message_id
        role := role
        content := content
        timestamp := timestamp
        document_ids := document_ids
        document_contents := document_contents }))

/-- Decoding of a message row by `get_conversation` (database.py:185-194):
NULL JSON columns become empty collections. -/
def rowToView (m : MessageRow) : MessageView :=
  { id := m.id
    role := m.role
    content := m.content
    timestamp := m.timestamp
    document_ids := m.document_ids.getD []
    document_contents := m.document_contents.getD [] }

/-- `EphemeralDatabase.get_conversation` (database.py:164-201): `none` when no
conversation row matches, otherwise the conversation with its messages
`ORDER BY m.id ASC`. -/
def get_conversation (db : EphemeralDatabase) (conversation_id : String) :
    Option ConversationView :=
  match db.conversations.find? (fun c => c.id == conversation_id) with
  | none => none
  | some conv =>
      some
        { conversation_id := conv.id
          created_at := conv.created_at
          updated_at := conv.updated_at
          messages :=
            ((db.messages.filter (fun m => m.conversation_id == conversation_id)).mergeSort
              (fun a b => decide (a.id ≤ b.id))).map rowToView }

/-- `EphemeralDatabase.delete_conversation` (database.py:244-261): `false`
unless a conversation row with this id *and* this owning session exists, else
delete the conversation row and return `true`.

The source relies on the schema's `ON DELETE CASCADE` to delete the messages
(see the comment at database.py:256), but the sqlite3 connection never issues
`PRAGMA foreign_keys = ON`, and SQLite leaves foreign-key enforcement off by
default — so only the `conversations` row is removed and the message rows
survive. -/
def delete_conversation (db : EphemeralDatabase) (conversation_id session_id : String) :
    EphemeralDatabase × Bool :=
  match db.conversations.find?
      (fun c => c.id == conversation_id && c.session_id == session_id) with
  | none => (db, false)
  | some _ =>
      ({ db with
          conversations := db.conversations.filter (fun c => !(c.id == conversation_id)) },
       true)

/-- Invariant maintained by the store: message ids are below the autoincrement
counter and the message table is sorted by id (ids are handed out in
insertion order). -/
def WF (db : EphemeralDatabase) : Prop :=
  (∀ m ∈ db.messages, m.id < db.next_message_id)
  ∧ db.messages.Pairwise (fun a b => a.id < b.id)

end EphemeralDatabase

/-! ## Theorems for claims C3 and C4 -/

/-- **C3.** `add_message` is atomic: whichever SQL statement inside the
transaction raises, either the whole operation commits — the message row is
appended and the owning conversation's `updated_at` is set to the message's
timestamp — or the error propagates and the database state handed back by
`get_cursor`'s rollback is exactly the entry state. -/
theorem add_message_transactionally_atomic
    (f : EphemeralDatabase.SqlFaults) (db : EphemeralDatabase)
    (conversation_id role content timestamp : String)
    (document_ids : List String) (document_contents : List (String × String))
    (db' : EphemeralDatabase) (r : Except String MessageView)
    (h : EphemeralDatabase.add_message_txn f db conversation_id role content timestamp
        document_ids document_contents = (db', r)) :
    (∃ v, r = .ok v
      ∧ db'.messages = db.messages ++
          [⟨db.next_message_id, conversation_id, role, content, timestamp,
            (if document_ids.isEmpty then none else some document_ids),
            (if document_contents.isEmpty then none else some document_contents)⟩]
      ∧ db'.conversations = db.conversations.map
          (fun c => if c.id = conversation_id then { c with updated_at := timestamp } else c))
    ∨ (∃ e, r = .error e ∧ db' = db) := by
  by_cases hfi : f.insert_message = true
  · right
    simp only [EphemeralDatabase.add_message_txn, EphemeralDatabase.runTransaction,
      hfi, if_true] at h
    rw [Prod.mk.injEq] at h
    obtain ⟨h1, h2⟩ := h
    exact ⟨_, h2.symm, h1.symm⟩
  · rw [Bool.not_eq_true] at hfi
    by_cases hfa : (f.insert_association && !document_ids.isEmpty) = true
    · right
      simp only [EphemeralDatabase.add_message_txn, EphemeralDatabase.runTransaction,
        hfi, hfa, Bool.false_eq_true, if_false, if_true] at h
      rw [Prod.mk.injEq] at h
      obtain ⟨h1, h2⟩ := h
      exact ⟨_, h2.symm, h1.symm⟩
    · rw [Bool.not_eq_true] at hfa
      by_cases hfu : f.update_conversation = true
      · right
        simp only [EphemeralDatabase.add_message_txn, EphemeralDatabase.runTransaction,
          hfi, hfa, hfu, Bool.false_eq_true, if_false, if_true] at h
        rw [Prod.mk.injEq] at h
        obtain ⟨h1, h2⟩ := h
        exact ⟨_, h2.symm, h1.symm⟩
      · rw [Bool.not_eq_true] at hfu
        left
        simp only [EphemeralDatabase.add_message_txn, EphemeralDatabase.runTransaction,
          hfi, hfa, hfu, Bool.false_eq_true, if_false] at h
        rw [Prod.mk.injEq] at h
        obtain ⟨h1, h2⟩ := h
        refine ⟨_, h2.symm, ?_, ?_⟩
        · rw [← h1]
          by_cases he : document_ids.isEmpty
          · simp [EphemeralDatabase.updateConversationTimestamp,
              EphemeralDatabase.insertAssociations, EphemeralDatabase.insertMessage, he]
          · simp [EphemeralDatabase.updateConversationTimestamp,
              EphemeralDatabase.insertAssociations, EphemeralDatabase.insertMessage, he]
        · rw [← h1]
          by_cases he : document_ids.isEmpty
          · simp [EphemeralDatabase.updateConversationTimestamp,
              EphemeralDatabase.insertAssociations, EphemeralDatabase.insertMessage, he]
          · simp [EphemeralDatabase.updateConversationTimestamp,
              EphemeralDatabase.insertAssociations, EphemeralDatabase.insertMessage, he]

/-- Concrete instantiation of `add_message_transactionally_atomic`: a fault-free
run against a one-conversation store appends the message row. -/
theorem add_message_transactionally_atomic_witness :
    (EphemeralDatabase.add_message_txn ⟨false, false, false⟩
        ⟨[⟨"c1", "s1", "t0", "t0"⟩], [], [], 0⟩ "c1" "user" "hi" "t1" [] []).1.messages
      = [⟨0, "c1", "user", "hi", "t1", none, none⟩] := by
  have h := add_message_transactionally_atomic ⟨false, false, false⟩
    ⟨[⟨"c1", "s1", "t0", "t0"⟩], [], [], 0⟩ "c1" "user" "hi" "t1" [] []
    ⟨[⟨"c1", "s1", "t0", "t1"⟩], [⟨0, "c1", "user", "hi", "t1", none, none⟩], [], 1⟩
    (.ok ⟨0, "user", "hi", "t1", [], []⟩) rfl
  rcases h with ⟨v, _, hm, _⟩ | ⟨e, he, _⟩
  · have : (EphemeralDatabase.add_message_txn ⟨false, false, false⟩
        ⟨[⟨"c1", "s1", "t0", "t0"⟩], [], [], 0⟩ "c1" "user" "hi" "t1" [] []).1
      = ⟨[⟨"c1", "s1", "t0", "t1"⟩], [⟨0, "c1", "user", "hi", "t1", none, none⟩], [], 1⟩ := by
      decide
    rw [this]
  · simp at he

/-- **C4**, evaluated at the failing input.  `delete_conversation` does return
`false` for an unknown conversation and for a conversation owned by another
session, `true` exactly once for the owner, and `false` on a repeated call —
but after the successful delete the conversation's message row is still in the
`messages` table: the connection never enables `PRAGMA foreign_keys`, so the
schema's `ON DELETE CASCADE` (database.py:48) is not enforced, contradicting
the function's own docstring "Delete a conversation and all its messages". -/
theorem delete_conversation_leaves_messages_behind :
    (EphemeralDatabase.delete_conversation
        ⟨[⟨"c1", "s1", "t0", "t0"⟩], [⟨0, "c1", "user", "hi", "t1", none, none⟩], [], 1⟩
        "c2" "s1").2 = false
    ∧ (EphemeralDatabase.delete_conversation
        ⟨[⟨"c1", "s1", "t0", "t0"⟩], [⟨0, "c1", "user", "hi", "t1", none, none⟩], [], 1⟩
        "c1" "s2").2 = false
    ∧ (EphemeralDatabase.delete_conversation
        ⟨[⟨"c1", "s1", "t0", "t0"⟩], [⟨0, "c1", "user", "hi", "t1", none, none⟩], [], 1⟩
        "c1" "s1").2 = true
    ∧ (EphemeralDatabase.delete_conversation
        ⟨[⟨"c1", "s1", "t0", "t0"⟩], [⟨0, "c1", "user", "hi", "t1", none, none⟩], [], 1⟩
        "c1" "s1").1.conversations = []
    ∧ (EphemeralDatabase.delete_conversation
        ⟨[⟨"c1", "s1", "t0", "t0"⟩], [⟨0, "c1", "user", "hi", "t1", none, none⟩], [], 1⟩
        "c1" "s1").1.messages = [⟨0, "c1", "user", "hi", "t1", none, none⟩]
    ∧ (EphemeralDatabase.delete_conversation
        (EphemeralDatabase.delete_conversation
          ⟨[⟨"c1", "s1", "t0", "t0"⟩], [⟨0, "c1", "user", "hi", "t1", none, none⟩], [], 1⟩
          "c1" "s1").1
        "c1" "s1").2 = false := by
  decide

/-! ## Theorem for claim C5 -/

theorem find?_map_invariant {α : Type} (l : List α) (f : α → α) (p : α → Bool)
    (hp : ∀ a, p (f a) = p a) :
    (l.map f).find? p = (l.find? p).map f := by
  induction l with
  | nil => rfl
  | cons a rest ih =>
    cases hpa : p a with
    | true => simp [List.find?, hp, hpa]
    | false => simp [List.find?, hp, hpa, ih]

theorem mergeSort_by_id_of_pairwise_lt (l : List MessageRow)
    (hl : l.Pairwise (fun a b => a.id < b.id)) :
    l.mergeSort (fun a b => decide (a.id ≤ b.id)) = l := by
  apply List.mergeSort_of_sorted
  exact hl.imp (fun h => by simpa using Nat.le_of_lt h)

/-- **C5.** Round-trip: for an existing conversation, `add_message` followed by
`get_conversation` returns the old message list with the added message placed
last, with identical role and content, its sequence id strictly greater than
every previously stored message of the conversation, and the whole list ordered
by strictly increasing id. -/
theorem add_message_get_conversation_roundtrip
    (db : EphemeralDatabase) (conversation_id role content timestamp : String)
    (document_ids : List String) (document_contents : List (String × String))
    (hwf : db.WF) (v₀ : ConversationView)
    (h₀ : db.get_conversation conversation_id = some v₀) :
    ∃ v,
      (db.add_message conversation_id role content timestamp
          document_ids document_contents).1.get_conversation conversation_id = some v
      ∧ (db.add_message conversation_id role content timestamp
          document_ids document_contents).2.role = role
      ∧ (db.add_message conversation_id role content timestamp
          document_ids document_contents).2.content = content
      ∧ v.messages = v₀.messages ++
          [(db.add_message conversation_id role content timestamp
              document_ids document_contents).2]
      ∧ (∀ mv ∈ v₀.messages,
          mv.id < (db.add_message conversation_id role content timestamp
              document_ids document_contents).2.id)
      ∧ (v.messages.map MessageView.id).Pairwise (· < ·) := by
  obtain ⟨hub, hsorted⟩ := hwf
  -- name the freshly inserted row
  obtain ⟨newRow, hnewRow⟩ : ∃ r : MessageRow,
      r = ⟨db.next_message_id, conversation_id, role, content, timestamp,
        (if document_ids.isEmpty then none else some document_ids),
        (if document_contents.isEmpty then none else some document_contents)⟩ := ⟨_, rfl⟩
  have hrowid : newRow.id = db.next_message_id := by rw [hnewRow]
  have hrowcid : newRow.conversation_id = conversation_id := by rw [hnewRow]
  have hmsgs : (db.add_message conversation_id role content timestamp
      document_ids document_contents).1.messages
      = db.messages ++ [newRow] := by
    rw [hnewRow]
    by_cases he : document_ids.isEmpty <;>
      simp [EphemeralDatabase.add_message, EphemeralDatabase.insertMessage,
        EphemeralDatabase.insertAssociations,
        EphemeralDatabase.updateConversationTimestamp, he]
  have hconvs : (db.add_message conversation_id role content timestamp
      document_ids document_contents).1.conversations
      = db.conversations.map
          (fun c => if c.id = conversation_id then { c with updated_at := timestamp } else c) := by
    by_cases he : document_ids.isEmpty <;>
      simp [EphemeralDatabase.add_message, EphemeralDatabase.insertMessage,
        EphemeralDatabase.insertAssociations,
        EphemeralDatabase.updateConversationTimestamp, he]
  have hret : (db.add_message conversation_id role content timestamp
      document_ids document_contents).2
      = ⟨db.next_message_id, role, content, timestamp, document_ids, document_contents⟩ := by
    simp [EphemeralDatabase.add_message, EphemeralDatabase.insertMessage]
  have hrtv : EphemeralDatabase.rowToView newRow
      = ⟨db.next_message_id, role, content, timestamp, document_ids, document_contents⟩ := by
    rw [hnewRow]
    by_cases he : document_ids = []
    · by_cases hc : document_contents = []
      · simp [EphemeralDatabase.rowToView, he, hc]
      · simp [EphemeralDatabase.rowToView, he, hc]
    · by_cases hc : document_contents = []
      · simp [EphemeralDatabase.rowToView, he, hc]
      · simp [EphemeralDatabase.rowToView, he, hc]
  unfold EphemeralDatabase.get_conversation at h₀
  cases hfind : db.conversations.find? (fun c => c.id == conversation_id) with
  | none => rw [hfind] at h₀; exact absurd h₀ (by simp)
  | some conv =>
    rw [hfind] at h₀
    simp only [Option.some.injEq] at h₀
    have hsf : (db.messages.filter
        (fun m => m.conversation_id == conversation_id)).Pairwise
        (fun a b => a.id < b.id) :=
      hsorted.sublist (List.filter_sublist db.messages)
    have hfilter : ((db.messages ++ [newRow]).filter
          (fun m => m.conversation_id == conversation_id))
        = db.messages.filter (fun m => m.conversation_id == conversation_id) ++
          [newRow] := by
      rw [List.filter_append]
      simp [List.filter, hrowcid]
    have hpw : (db.messages.filter (fun m => m.conversation_id == conversation_id) ++
        [newRow]).Pairwise (fun a b => a.id < b.id) := by
      rw [List.pairwise_append]
      refine ⟨hsf, List.pairwise_singleton _ _, ?_⟩
      intro a ha b hb
      rw [List.mem_singleton] at hb; subst hb
      rw [hrowid]
      exact hub a (List.mem_of_mem_filter ha)
    have hpres : ∀ c : ConversationRow,
        (((if c.id = conversation_id then { c with updated_at := timestamp } else c).id
            == conversation_id)) = (c.id == conversation_id) := by
      intro c; by_cases hc : c.id = conversation_id <;> simp [hc]
    have hfind' : ((db.add_message conversation_id role content timestamp
        document_ids document_contents).1.conversations).find?
          (fun c => c.id == conversation_id)
        = some (if conv.id = conversation_id
            then { conv with updated_at := timestamp } else conv) := by
      rw [hconvs, find?_map_invariant _ _ _ hpres, hfind]
      rfl
    have hget : (db.add_message conversation_id role content timestamp
        document_ids document_contents).1.get_conversation conversation_id
        = some
          { conversation_id :=
              (if conv.id = conversation_id
                then { conv with updated_at := timestamp } else conv).id
            created_at :=
              (if conv.id = conversation_id
                then { conv with updated_at := timestamp } else conv).created_at
            updated_at :=
              (if conv.id = conversation_id
                then { conv with updated_at := timestamp } else conv).updated_at
            messages :=
              ((db.messages.filter (fun m => m.conversation_id == conversation_id) ++
                [newRow]).map EphemeralDatabase.rowToView) } := by
      unfold EphemeralDatabase.get_conversation
      rw [hfind']
      simp only [hmsgs, hfilter, mergeSort_by_id_of_pairwise_lt _ hpw]
    refine ⟨_, hget, by rw [hret], by rw [hret], ?_, ?_, ?_⟩
    · rw [← h₀]
      simp only [List.map_append, List.map_cons, List.map_nil]
      rw [mergeSort_by_id_of_pairwise_lt _ hsf, hrtv, hret]
    · intro mv hmv
      rw [← h₀] at hmv
      simp only [mergeSort_by_id_of_pairwise_lt _ hsf, List.mem_map] at hmv
      obtain ⟨a, ha, rfl⟩ := hmv
      rw [hret]
      exact hub a (List.mem_of_mem_filter ha)
    · simp only [List.map_map]
      rw [List.pairwise_map]
      exact hpw.imp (fun h => h)

/-- Concrete instantiation of `add_message_get_conversation_roundtrip` on a
store with one conversation already holding one message. -/
theorem add_message_get_conversation_roundtrip_witness :
    ∃ v,
      (EphemeralDatabase.add_message
          ⟨[⟨"c1", "s1", "t0", "t0"⟩], [⟨0, "c1", "user", "hi", "t1", none, none⟩], [], 1⟩
          "c1" "assistant" "hello" "t2" [] []).1.get_conversation "c1" = some v
      ∧ (EphemeralDatabase.add_message
          ⟨[⟨"c1", "s1", "t0", "t0"⟩], [⟨0, "c1", "user", "hi", "t1", none, none⟩], [], 1⟩
          "c1" "assistant" "hello" "t2" [] []).2.role = "assistant"
      ∧ (EphemeralDatabase.add_message
          ⟨[⟨"c1", "s1", "t0", "t0"⟩], [⟨0, "c1", "user", "hi", "t1", none, none⟩], [], 1⟩
          "c1" "assistant" "hello" "t2" [] []).2.content = "hello"
      ∧ v.messages = ([⟨0, "user", "hi", "t1", [], []⟩] : List MessageView) ++
          [(EphemeralDatabase.add_message
              ⟨[⟨"c1", "s1", "t0", "t0"⟩], [⟨0, "c1", "user", "hi", "t1", none, none⟩], [], 1⟩
              "c1" "assistant" "hello" "t2" [] []).2]
      ∧ (∀ mv ∈ [(⟨0, "user", "hi", "t1", [], []⟩ : MessageView)],
          mv.id < (EphemeralDatabase.add_message
              ⟨[⟨"c1", "s1", "t0", "t0"⟩], [⟨0, "c1", "user", "hi", "t1", none, none⟩], [], 1⟩
              "c1" "assistant" "hello" "t2" [] []).2.id)
      ∧ (v.messages.map MessageView.id).Pairwise (· < ·) :=
  add_message_get_conversation_roundtrip
    ⟨[⟨"c1", "s1", "t0", "t0"⟩], [⟨0, "c1", "user", "hi", "t1", none, none⟩], [], 1⟩
    "c1" "assistant" "hello" "t2" [] []
    ⟨by decide, by decide⟩
    ⟨"c1", "t0", "t0", [⟨0, "user", "hi", "t1", [], []⟩]⟩
    (by simp [EphemeralDatabase.get_conversation, List.find?, List.filter,
      EphemeralDatabase.rowToView])

/-! ## Port allocator (`deployment/scripts/provision_session.py`) -/

/-- The `while` loop of `find_available_ports`
(provision_session.py:108-129).  `free p` models
`sock.connect_ex(('127.0.0.1', p)) != 0` (the connection attempt failed, so
the port is free).  Each iteration probes `port`, appends it to the
accumulator when free, advances to `port + 1`, and raises once
`port + 1 > base_port + 1000`; the loop exits normally when the accumulator
reaches `count` entries.  The second component instruments the run with the
list of ports actually probed. -/
def find_available_ports_loop (free : Nat → Bool) (base_port count : Nat)
    (port : Nat) (acc : List Nat) : Except String (List Nat) × List Nat :=
  if acc.length < count then
    let acc' := if free port then acc ++ [port] else acc
    if port + 1 > base_port + 1000 then
      (.error ("Could not find " ++ toString count ++
        " available ports starting from " ++ toString base_port), [port])
    else
      let res := find_available_ports_loop free base_port count (port + 1) acc'
      (res.1, port :: res.2)
  else (.ok acc, [])
termination_by base_port + 1001 - port
decreasing_by omega

/-- `find_available_ports(base_port, count)` (provision_session.py:108-129). -/
def find_available_ports (free : Nat → Bool) (base_port count : Nat) :
    Except String (List Nat) × List Nat :=
  find_available_ports_loop free base_port count base_port []

theorem find_available_ports_loop_spec (free : Nat → Bool) (base_port count : Nat) :
    ∀ (n port : Nat) (acc : List Nat),
      n = base_port + 1001 - port →
      base_port ≤ port → port ≤ base_port + 1000 →
      (∀ p ∈ acc, free p = true ∧ base_port ≤ p ∧ p < port ∧ p ≤ base_port + 1000) →
      acc.Pairwise (· < ·) →
      acc.length ≤ count →
      (∀ l, (find_available_ports_loop free base_port count port acc).1 = .ok l →
        l.length = count ∧ l.Pairwise (· < ·) ∧
        ∀ p ∈ l, free p = true ∧ base_port ≤ p ∧ p ≤ base_port + 1000)
      ∧ (find_available_ports_loop free base_port count port acc).2.length
          ≤ base_port + 1001 - port
      ∧ (∀ p ∈ (find_available_ports_loop free base_port count port acc).2,
          port ≤ p ∧ p ≤ base_port + 1000) := by
  intro n
  induction n with
  | zero => intro port acc hn hbase hport _ _ _; omega
  | succ n ih =>
    intro port acc hn hbase hport hacc hpw hlen
    rw [find_available_ports_loop]
    by_cases hlt : acc.length < count
    · simp only [hlt, if_true]
      by_cases hgt : port + 1 > base_port + 1000
      · simp only [hgt, if_true]
        refine ⟨?_, ?_, ?_⟩
        · intro l hl; exact absurd hl (by simp)
        · simp; omega
        · intro p hp; rw [List.mem_singleton] at hp; subst hp; exact ⟨le_refl _, hport⟩
      · simp only [hgt, if_false]
        have hport1 : port + 1 ≤ base_port + 1000 := by omega
        have hacc' : ∀ p ∈ (if free port then acc ++ [port] else acc),
            free p = true ∧ base_port ≤ p ∧ p < port + 1 ∧ p ≤ base_port + 1000 := by
          by_cases hf : free port
          · simp only [hf, if_true]
            intro p hp
            rcases List.mem_append.mp hp with hp | hp
            · have := hacc p hp; exact ⟨this.1, this.2.1, by omega, this.2.2.2⟩
            · rw [List.mem_singleton] at hp; subst hp
              exact ⟨hf, hbase, by omega, by omega⟩
          · simp [hf]
            intro p hp
            have := hacc p hp; exact ⟨this.1, this.2.1, by omega, this.2.2.2⟩
        have hpw' : (if free port then acc ++ [port] else acc).Pairwise (· < ·) := by
          by_cases hf : free port
          · simp only [hf, if_true]
            rw [List.pairwise_append]
            refine ⟨hpw, List.pairwise_singleton _ _, ?_⟩
            intro a ha b hb
            rw [List.mem_singleton] at hb; subst hb
            exact (hacc a ha).2.2.1
          · simp [hf]; exact hpw
        have hlen' : (if free port then acc ++ [port] else acc).length ≤ count := by
          by_cases hf : free port
          · simp only [hf, if_true, List.length_append, List.length_singleton]; omega
          · simp [hf]; omega
        have hrec := ih (port + 1) (if free port then acc ++ [port] else acc)
          (by omega) (by omega) hport1 hacc' hpw' hlen'
        refine ⟨hrec.1, ?_, ?_⟩
        · simp only [List.length_cons]
          have := hrec.2.1; omega
        · intro p hp
          rcases List.mem_cons.mp hp with hp | hp
          · subst hp; exact ⟨le_refl _, hport⟩
          · have := hrec.2.2 p hp; exact ⟨by omega, this.2⟩
    · simp only [hlt, if_false]
      refine ⟨?_, ?_, ?_⟩
      · intro l hl
        simp only [Except.ok.injEq] at hl; subst hl
        refine ⟨by omega, hpw, ?_⟩
        intro p hp
        have := hacc p hp
        exact ⟨this.1, this.2.1, this.2.2.2⟩
      · simp
      · intro p hp; exact absurd hp (by simp)

/-- **C6.** For every probe oracle, base port and count, `find_available_ports`
either returns a strictly increasing list of exactly `count` ports, each
probed free and each within 1000 of the base port, or fails with a
"could not find ports" error; in both cases it probes at most 1001 candidate
ports past the start (all within `[base_port, base_port + 1000]`), so the
search never loops unboundedly. -/
theorem find_available_ports_bounded_and_correct
    (free : Nat → Bool) (base_port count : Nat) :
    (∀ l, (find_available_ports free base_port count).1 = .ok l →
      l.length = count ∧ l.Pairwise (· < ·) ∧
      ∀ p ∈ l, free p = true ∧ base_port ≤ p ∧ p ≤ base_port + 1000)
    ∧ (find_available_ports free base_port count).2.length ≤ 1001
    ∧ (∀ p ∈ (find_available_ports free base_port count).2,
        base_port ≤ p ∧ p ≤ base_port + 1000)
    ∧ ((∃ e, (find_available_ports free base_port count).1 = .error e)
        ∨ (∃ l, (find_available_ports free base_port count).1 = .ok l)) := by
  have h := find_available_ports_loop_spec free base_port count
    (base_port + 1001 - base_port) base_port []
    rfl (le_refl _) (by omega) (by intro p hp; exact absurd hp (by simp))
    (List.Pairwise.nil) (by simp)
  unfold find_available_ports
  refine ⟨h.1, by have := h.2.1; omega, ?_, ?_⟩
  · intro p hp
    have := h.2.2 p hp
    exact ⟨by omega, this.2⟩
  · cases hres : (find_available_ports_loop free base_port count base_port []).1 with
    | error e => exact Or.inl ⟨e, rfl⟩
    | ok l => exact Or.inr ⟨l, rfl⟩

/-- Concrete instantiation of `find_available_ports_bounded_and_correct`: with
every port free, the first two candidates from 5000 are returned in order. -/
theorem find_available_ports_witness :
    (find_available_ports (fun _ => true) 5000 2).1 = .ok [5000, 5001]
    ∧ ([5000, 5001] : List Nat).length = 2
    ∧ ([5000, 5001] : List Nat).Pairwise (· < ·) := by
  have heval : (find_available_ports (fun _ => true) 5000 2).1 = .ok [5000, 5001] := by
    simp [find_available_ports, find_available_ports_loop]
  have h := (find_available_ports_bounded_and_correct (fun _ => true) 5000 2).1
    [5000, 5001] heval
  exact ⟨heval, h.1, h.2.1⟩

/-! ## Runtime orchestrator (`deployment/scripts/manage_session_containers.py`) -/

inductive OrchestratorAction where
  | stop (session_id : String)
  | pause
  | start (session_id : String)
deriving Repr, DecidableEq

/-- The outcomes of `stop_session` and `start_session` per session id.  Both
shell out to docker / docker-compose (manage_session_containers.py:161-214 and
96-158); their success booleans are decided by the environment and are
modelled as oracles. -/
structure Orchestrator where
  stop_outcome : String → Bool
  start_outcome : String → Bool

/-- `restart_session` (manage_session_containers.py:217-226), instrumented
with the trace of operations performed: stop the session; if that succeeded,
a brief `time.sleep(2)` pause, then start, returning start's result; if stop
failed, return `False` without attempting start. -/
def restart_session (env : Orchestrator) (session_id : String) :
    Bool × List OrchestratorAction :=
  if env.stop_outcome session_id then
    (env.start_outcome session_id,
     [.stop session_id, .pause, .start session_id])
  else
    (false, [.stop session_id])

/-- **C7.** `restart_session` performs stop, then a pause, then start, and
returns start's result; when stop fails it returns failure and never attempts
start. -/
theorem restart_session_short_circuits (env : Orchestrator) (session_id : String) :
    (env.stop_outcome session_id = true →
      (restart_session env session_id).1 = env.start_outcome session_id
      ∧ (restart_session env session_id).2
          = [.stop session_id, .pause, .start session_id])
    ∧ (env.stop_outcome session_id = false →
      (restart_session env session_id).1 = false
      ∧ OrchestratorAction.start session_id ∉ (restart_session env session_id).2
      ∧ (restart_session env session_id).2 = [.stop session_id]) := by
  constructor <;> intro h <;> simp [restart_session, h]

/-- Concrete instantiation of `restart_session_short_circuits`: when stop
always fails, restart fails without a start action in its trace. -/
theorem restart_session_short_circuits_witness :
    (restart_session ⟨fun _ => false, fun _ => true⟩ "s1").1 = false
    ∧ OrchestratorAction.start "s1"
        ∉ (restart_session ⟨fun _ => false, fun _ => true⟩ "s1").2 := by
  have h := (restart_session_short_circuits ⟨fun _ => false, fun _ => true⟩ "s1").2 rfl
  exact ⟨h.1, h.2.1⟩

/-! ## `get_session_info` endpoint (`app/api/auth.py:92-125`) -/

inductive ApiOutcome where
  | ok (username : String) (time_remaining_minutes : Int) (session_active : Bool)
  | httpError (status_code : Nat) (detail : String)
deriving Repr, DecidableEq

/-- The `get_session_info` endpoint body.  `session_id` is the token's
`session_id` claim (`none` when absent).  Python falsiness of the
`timedelta` returned by `get_session_time_remaining` makes
`if not time_remaining` fire both for `None` and for `timedelta(0)`, so a
still-registered but expired session answers 401 "Session expired" while an
unknown session id answers 401 "Session not found".  The rounded
`time_remaining_hours` float of the response is not modelled; minutes use
Python `int()` truncation, here division of the nonnegative remaining value. -/
def get_session_info (mgr : SessionManager) (session_id : Option String)
    (now ttl : Int) : ApiOutcome :=
  match session_id with
  | none => .httpError 401 "Invalid session"
  | some sid =>
    match SessionManager.get_session mgr sid with
    | none => .httpError 401 "Session not found"
    | some s =>
      match SessionManager.get_session_time_remaining mgr sid now ttl with
      | none => .httpError 401 "Session expired"
      | some r =>
        if r = 0 then .httpError 401 "Session expired"
        else .ok s.username (r / 60) s.active

/-- **C8, counterexample.**  A session created at time 0 with TTL 10, queried
at time 20 (expired but still registered), fails with 401 "Session expired",
while an unknown session id fails with 401 "Session not found": the two
user-visible failures are distinguishable, contradicting the claim that they
are identical in status *and* detail. -/
theorem expired_and_unknown_session_responses_differ :
    get_session_info
        ⟨[("sid1", ⟨"alice", "h", 0, 10, [], [], true⟩)], [("sid1", 0)]⟩
        (some "sid1") 20 10
      = .httpError 401 "Session expired"
    ∧ get_session_info
        ⟨[("sid1", ⟨"alice", "h", 0, 10, [], [], true⟩)], [("sid1", 0)]⟩
        (some "sid2") 20 10
      = .httpError 401 "Session not found"
    ∧ get_session_info
        ⟨[("sid1", ⟨"alice", "h", 0, 10, [], [], true⟩)], [("sid1", 0)]⟩
        (some "sid1") 20 10
      ≠ get_session_info
        ⟨[("sid1", ⟨"alice", "h", 0, 10, [], [], true⟩)], [("sid1", 0)]⟩
        (some "sid2") 20 10 := by
  refine ⟨by decide, by decide, ?_⟩
  intro h
  rw [show get_session_info
      ⟨[("sid1", ⟨"alice", "h", 0, 10, [], [], true⟩)], [("sid1", 0)]⟩
      (some "sid1") 20 10 = .httpError 401 "Session expired" from by decide,
    show get_session_info
      ⟨[("sid1", ⟨"alice", "h", 0, 10, [], [], true⟩)], [("sid1", 0)]⟩
      (some "sid2") 20 10 = .httpError 401 "Session not found" from by decide] at h
  exact absurd h (by decide)

/-- **C8, amended.**  For a session that is still registered but expired
(time remaining clamped to zero) and for an unknown session id, both failures
carry HTTP status 401, but their details differ: "Session expired" versus
"Session not found" — the responses are indistinguishable only at the
status-code level, not in their error detail. -/
theorem expired_vs_unknown_same_status_different_detail
    (mgr : SessionManager) (sid_expired sid_unknown : String) (now ttl : Int)
    (s : Session)
    (hs : SessionManager.get_session mgr sid_expired = some s)
    (hr : SessionManager.get_session_time_remaining mgr sid_expired now ttl = some 0)
    (hmiss : SessionManager.get_session mgr sid_unknown = none) :
    get_session_info mgr (some sid_expired) now ttl
      = .httpError 401 "Session expired"
    ∧ get_session_info mgr (some sid_unknown) now ttl
      = .httpError 401 "Session not found"
    ∧ get_session_info mgr (some sid_expired) now ttl
      ≠ get_session_info mgr (some sid_unknown) now ttl := by
  have h1 : get_session_info mgr (some sid_expired) now ttl
      = .httpError 401 "Session expired" := by
    simp [get_session_info, hs, hr]
  have h2 : get_session_info mgr (some sid_unknown) now ttl
      = .httpError 401 "Session not found" := by
    simp [get_session_info, hmiss]
  refine ⟨h1, h2, ?_⟩
  rw [h1, h2]
  intro h
  simp at h

/-- Concrete instantiation of `expired_vs_unknown_same_status_different_detail`. -/
theorem expired_vs_unknown_detail_witness :
    get_session_info
        ⟨[("sidA", ⟨"bob", "h", 0, 5, [], [], true⟩)], [("sidA", 0)]⟩
        (some "sidA") 50 5
      = .httpError 401 "Session expired"
    ∧ get_session_info
        ⟨[("sidA", ⟨"bob", "h", 0, 5, [], [], true⟩)], [("sidA", 0)]⟩
        (some "sidB") 50 5
      = .httpError 401 "Session not found" := by
  have h := expired_vs_unknown_same_status_different_detail
    ⟨[("sidA", ⟨"bob", "h", 0, 5, [], [], true⟩)], [("sidA", 0)]⟩
    "sidA" "sidB" 50 5 ⟨"bob", "h", 0, 5, [], [], true⟩
    (by decide) (by decide) (by decide)
  exact ⟨h.1, h.2.1⟩

/-! ## Startup bootstrap (`SessionManager.load_sessions_from_file`,
`app/core/security.py:154-206`, container mode) -/

/-- One entry of the `sessions` list in the mounted `sessions.json` file as
consumed by the loading loop: `session_id` may be absent (`dict.get`), and the
`created_at` / `expires_at` ISO strings may fail `datetime.fromisoformat`
(modelled as `none`, since the raised `ValueError` is what matters). -/
structure SessionFileEntry where
  session_id : Option String
  username : String
  password_hash : String
  created_at : Option Int
  expires_at : Option Int
  documents : List String
  conversations : List String
  active : Bool
deriving Repr, DecidableEq

/-- The per-entry loading loop of `load_sessions_from_file` in container mode
(security.py:176-201).  Entries without a `session_id` are skipped; a
timestamp that fails to parse raises, and the surrounding `try`/`except`
(security.py:167,205) abandons the remaining entries while keeping the
sessions already loaded in place; entries whose `expires_at` is earlier than
the load time `now` are skipped as expired. -/
def load_sessions_from_file : SessionManager → Int → List SessionFileEntry → SessionManager
  | mgr, _, [] => mgr
  | mgr, now, e :: rest =>
    match e.session_id with
    | none => load_sessions_from_file mgr now rest
    | some sid =>
      match e.created_at, e.expires_at with
      | some created_at, some expires_at =>
        if expires_at < now then
          load_sessions_from_file mgr now rest
        else
          load_sessions_from_file
            { sessions := setKey mgr.sessions sid
                ⟨e.username, e.password_hash, created_at, expires_at,
                  e.documents, e.conversations, e.active⟩
              session_start_times := setKey mgr.session_start_times sid created_at }
            now rest
      | _, _ => mgr

/-- **C9.** Provided every session already in the registry is unexpired at the
load time (in particular when the registry is empty, as at container
startup), every session present after `load_sessions_from_file` has
`expires_at` at or after the load time: expired descriptor entries are never
rehydrated. -/
theorem load_sessions_rehydrates_only_unexpired
    (now : Int) (entries : List SessionFileEntry) (mgr : SessionManager)
    (hmgr : ∀ sid s, SessionManager.get_session mgr sid = some s → now ≤ s.expires_at) :
    ∀ sid s,
      SessionManager.get_session (load_sessions_from_file mgr now entries) sid = some s →
        now ≤ s.expires_at := by
  induction entries generalizing mgr with
  | nil => intro sid s h; exact hmgr sid s h
  | cons e rest ih =>
    intro sid s h
    rw [load_sessions_from_file] at h
    cases hsid : e.session_id with
    | none =>
      rw [hsid] at h
      exact ih mgr hmgr sid s h
    | some sid0 =>
      rw [hsid] at h
      cases hca : e.created_at with
      | none => rw [hca] at h; exact hmgr sid s h
      | some ca =>
        rw [hca] at h
        cases hea : e.expires_at with
        | none => rw [hea] at h; exact hmgr sid s h
        | some ea =>
          rw [hea] at h
          simp only [] at h
          by_cases hexp : ea < now
          · rw [if_pos hexp] at h
            exact ih mgr hmgr sid s h
          · rw [if_neg hexp] at h
            refine ih _ ?_ sid s h
            intro sid' s' h'
            unfold SessionManager.get_session at h'
            by_cases heq : sid' = sid0
            · subst heq
              rw [lookupKey_setKey_self] at h'
              simp only [Option.some.injEq] at h'
              rw [← h']
              simp
              omega
            · rw [lookupKey_setKey_ne _ _ _ _ heq] at h'
              exact hmgr sid' s' h'

/-- Concrete instantiation of `load_sessions_rehydrates_only_unexpired`: at
load time 10, an entry expiring at 5 is skipped while one expiring at 50 is
loaded, and the loaded session is unexpired. -/
theorem load_sessions_rehydrates_only_unexpired_witness :
    SessionManager.get_session
        (load_sessions_from_file ⟨[], []⟩ 10
          [⟨some "s1", "u1", "h1", some 0, some 5, [], [], true⟩,
            ⟨some "s2", "u2", "h2", some 0, some 50, [], [], true⟩]) "s1" = none
    ∧ SessionManager.get_session
        (load_sessions_from_file ⟨[], []⟩ 10
          [⟨some "s1", "u1", "h1", some 0, some 5, [], [], true⟩,
            ⟨some "s2", "u2", "h2", some 0, some 50, [], [], true⟩]) "s2"
        = some ⟨"u2", "h2", 0, 50, [], [], true⟩
    ∧ (10 : Int) ≤ 50 := by
  refine ⟨by decide, by decide, ?_⟩
  have h := load_sessions_rehydrates_only_unexpired 10
    [⟨some "s1", "u1", "h1", some 0, some 5, [], [], true⟩,
      ⟨some "s2", "u2", "h2", some 0, some 50, [], [], true⟩]
    ⟨[], []⟩
    (by intro sid s hval; exact absurd hval (by simp [SessionManager.get_session, lookupKey]))
    "s2" ⟨"u2", "h2", 0, 50, [], [], true⟩ (by decide)
  exact h

/-! ## Descriptor sweep (`deployment/scripts/cleanup_session_containers.py`) -/

/-- Python falsiness of an optional string: `None` and `""` are both falsy. -/
def pyFalsy : Option String → Bool
  | none => true
  | some s => s.isEmpty

/-- The fields of a session descriptor consulted by `is_session_expired`
(cleanup_session_containers.py:107-128): `container_config.get('expires_at')`
and each entry of the `sessions` list's `get('expires_at')`. -/
structure SessionConfig where
  container_expires_at : Option String
  sessions : List (Option String)
deriving Repr, DecidableEq

/-- `is_session_expired` (cleanup_session_containers.py:107-128).  `parse`
models `datetime.fromisoformat` (`none` = `ValueError`, caught by the
`except`, which returns `False`); the source first applies
`.replace('Z', '+00:00')`.  Missing or falsy expiry strings in both places
yield `False`. -/
def is_session_expired (parse : String → Option Int) (now : Int)
    (cfg : SessionConfig) : Bool :=
  let e0 := cfg.container_expires_at
  let e1 := if pyFalsy e0 then
      match cfg.sessions with
      | [] => e0
      | s0 :: _ => s0
    else e0
  if pyFalsy e1 then false
  else
    match e1 with
    | none => false
    | some str =>
      match parse (str.replace "Z" "+00:00") with
      | none => false
      | some expires_at => decide (now > expires_at)

/-- The sweep of `cleanup_expired_sessions` (cleanup_session_containers.py:
295-323) over candidate descriptor files, returning the ids of the sessions
it cleans up (files whose config failed to load are skipped). -/
def cleanup_expired_sessions (parse : String → Option Int) (now : Int) :
    List (String × Option SessionConfig) → List String
  | [] => []
  | file :: rest =>
    match file.2 with
    | none => cleanup_expired_sessions parse now rest
    | some config =>
      if is_session_expired parse now config then
        file.1 :: cleanup_expired_sessions parse now rest
      else
        cleanup_expired_sessions parse now rest

/-- **C10.** The expiry check is fail-safe: a descriptor with no usable
`expires_at` (missing or empty in both `container_config` and the session
list) or whose selected expiry string fails to parse is never reported
expired, and consequently the default sweep never cleans up such a session. -/
theorem is_session_expired_fail_safe
    (parse : String → Option Int) (now : Int) (cfg : SessionConfig)
    (h : match (if pyFalsy cfg.container_expires_at then
          (match cfg.sessions with
            | [] => cfg.container_expires_at
            | s0 :: _ => s0)
          else cfg.container_expires_at) with
        | none => True
        | some str => str.isEmpty = true ∨ parse (str.replace "Z" "+00:00") = none) :
    is_session_expired parse now cfg = false
    ∧ ∀ (session_files : List (String × Option SessionConfig)) (sid : String),
        (∀ c, (sid, some c) ∈ session_files → c = cfg) →
        sid ∉ cleanup_expired_sessions parse now session_files := by
  have hfalse : is_session_expired parse now cfg = false := by
    simp only [is_session_expired]
    cases he1 : (if pyFalsy cfg.container_expires_at then
        (match cfg.sessions with
          | [] => cfg.container_expires_at
          | s0 :: _ => s0)
        else cfg.container_expires_at) with
    | none => rfl
    | some str =>
      rw [he1] at h
      by_cases hemp : str.isEmpty
      · simp [pyFalsy, hemp]
      · rcases h with h | h
        · exact absurd h hemp
        · simp [pyFalsy, hemp, h]
  refine ⟨hfalse, ?_⟩
  intro session_files sid
  induction session_files with
  | nil => intro _; simp [cleanup_expired_sessions]
  | cons file rest ih =>
    intro hfiles
    have hrest : ∀ c, (sid, some c) ∈ rest → c = cfg := by
      intro c hc; exact hfiles c (List.mem_cons_of_mem _ hc)
    rw [cleanup_expired_sessions]
    cases hf2 : file.2 with
    | none => exact ih hrest
    | some config =>
      show sid ∉ (if is_session_expired parse now config then
          file.1 :: cleanup_expired_sessions parse now rest
        else cleanup_expired_sessions parse now rest)
      by_cases hexp : is_session_expired parse now config = true
      · rw [if_pos hexp]
        intro hmem
        rcases List.mem_cons.mp hmem with hmem | hmem
        · subst hmem
          have hcfg : config = cfg := by
            apply hfiles
            rw [List.mem_cons]
            left
            have hfe : file = (file.1, file.2) := rfl
            rw [hfe, hf2]
          rw [hcfg, hfalse] at hexp
          exact absurd hexp (by simp)
        · exact ih hrest hmem
      · rw [if_neg hexp]
        exact ih hrest

/-- Concrete instantiation of `is_session_expired_fail_safe`: a descriptor
with no expiry recorded anywhere is not reported expired, and its session
survives the sweep. -/
theorem is_session_expired_fail_safe_witness :
    is_session_expired (fun _ => some 0) 99 ⟨none, []⟩ = false
    ∧ "sidA" ∉ cleanup_expired_sessions (fun _ => some 0) 99
        [("sidA", some ⟨none, []⟩)] := by
  have h := is_session_expired_fail_safe (fun _ => some 0) 99 ⟨none, []⟩ trivial
  refine ⟨h.1, h.2 [("sidA", some ⟨none, []⟩)] "sidA" ?_⟩
  intro c hc
  simp at hc
  exact hc
